import Mathlib

/-!
Verification of the beets `import_history` plugin
(`src/beetsplug/import_history.py`) against its natural-language
specification.  The SQLite-backed table `imports_history` with columns
`(origin_path text, mb_albumid text PRIMARY KEY)` is embedded as a list of
rows in rowid (insertion) order; each database method becomes a pure
function on that list.
-/

namespace ImportHist

/-- Store state: the rows of the `imports_history` table in rowid order.
Each row is `(origin_path, mb_albumid)`, matching the column order of the
`CREATE TABLE` statement. -/
abbrev Store := List (String × String)

/-- Embedding of `ImportHistDatabase.insert_album`: the SQL statement
`INSERT OR REPLACE INTO imports_history VALUES (?, ?)` with primary key
`mb_albumid` deletes any conflicting row and appends the new row (it
receives a fresh rowid, so it sorts last in a table scan). -/
def insert_album (origin_path mb_albumid : String) (st : Store) : Store :=
  st.filter (fun r => r.2 ≠ mb_albumid) ++ [(origin_path, mb_albumid)]

/-- Embedding of `ImportHistDatabase.remove_album`: the SQL statement
`DELETE FROM imports_history WHERE mb_albumid=?`; deleting zero rows is
not an error. -/
def remove_album (mbid : String) (st : Store) : Store :=
  st.filter (fun r => r.2 ≠ mbid)

/-- Embedding of `ImportHistDatabase.was_album_recorded`: selects
`origin_path` for the rows with the given `mb_albumid` and returns
`paths[0][0]` when the result set is non-empty, `None` otherwise. -/
def was_album_recorded (mbid : String) (st : Store) : Option String :=
  match st.filter (fun r => r.2 = mbid) with
  | [] => none
  | r :: _ => some r.1

/-- Rows of the store holding the given identifier. -/
def recordsFor (k : String) (st : Store) : Store :=
  st.filter (fun r => r.2 = k)

end ImportHist

namespace ImportHist

theorem recordsFor_insert_self (p k : String) (st : Store) :
    recordsFor k (insert_album p k st) = [(p, k)] := by
  unfold recordsFor insert_album
  rw [List.filter_append]
  have h1 : (st.filter (fun r => r.2 ≠ k)).filter (fun r => r.2 = k) = [] := by
    rw [List.filter_filter]
    apply List.filter_eq_nil_iff.mpr
    intro a _
    by_cases h : a.2 = k <;> simp [h]
  rw [h1]
  simp

end ImportHist

/-- C1: for every identifier `k` and paths `p1`, `p2`, performing
`insert_album p1 k` and then `insert_album p2 k` leaves exactly one row
for `k`, whose `origin_path` is `p2`; the second insert is a total
operation (INSERT OR REPLACE) and does not fail although a row for `k`
already exists. -/
theorem C1_upsert_idempotence (k p1 p2 : String) (st : ImportHist.Store) :
    ImportHist.recordsFor k
      (ImportHist.insert_album p2 k (ImportHist.insert_album p1 k st)) = [(p2, k)] ∧
    ImportHist.was_album_recorded k
      (ImportHist.insert_album p2 k (ImportHist.insert_album p1 k st)) = some p2 := by
  constructor
  · exact ImportHist.recordsFor_insert_self p2 k _
  · unfold ImportHist.was_album_recorded
    have h := ImportHist.recordsFor_insert_self p2 k (ImportHist.insert_album p1 k st)
    unfold ImportHist.recordsFor at h
    rw [h]

namespace ImportHist

theorem filter_ne_then_eq (k : String) (st : Store) :
    (st.filter (fun r => r.2 ≠ k)).filter (fun r => r.2 = k) = [] := by
  rw [List.filter_filter]
  apply List.filter_eq_nil_iff.mpr
  intro a _
  by_cases h : a.2 = k <;> simp [h]

end ImportHist

/-- C3: for every identifier `k`, after `remove_album k` the lookup
`was_album_recorded k` returns `none` (the absence marker); removing an
absent key leaves the store unchanged (the SQL DELETE affects zero rows
and does not raise); both operations are total functions in the model, so
lookup never throws on absence. -/
theorem C3_lookup_remove_consistency (k : String) (st : ImportHist.Store) :
    ImportHist.was_album_recorded k (ImportHist.remove_album k st) = none ∧
    (ImportHist.recordsFor k st = [] → ImportHist.remove_album k st = st) := by
  constructor
  · unfold ImportHist.was_album_recorded ImportHist.remove_album
    rw [ImportHist.filter_ne_then_eq]
  · intro h
    unfold ImportHist.recordsFor at h
    unfold ImportHist.remove_album
    apply List.filter_eq_self.mpr
    intro a ha
    have := List.filter_eq_nil_iff.mp h a ha
    simpa using this

/-- Witness for C3 at a concrete store. -/
theorem C3_lookup_remove_consistency_witness :
    ImportHist.recordsFor "x" [("p", "a")] = [] ∧
    ImportHist.was_album_recorded "x" (ImportHist.remove_album "x" [("p", "a")]) = none ∧
    ImportHist.remove_album "x" [("p", "a")] = [("p", "a")] := by
  refine ⟨by decide, ?_, ?_⟩
  · exact (C3_lookup_remove_consistency "x" [("p", "a")]).1
  · exact (C3_lookup_remove_consistency "x" [("p", "a")]).2 (by decide)

namespace ImportHist

/-- Imported item as seen by the hook: only `mb_albumid` and `path` are
read by `import_stage`. -/
structure Item where
  mb_albumid : String
  path : String
deriving DecidableEq, Repr

/-- Character-wise common prefix of two strings, as performed by the loop
in `os.path.commonprefix` over `s1 = min(m)` and `s2 = max(m)`: stop at
the first mismatching position, return all of `s1` if it is exhausted
first (the case of `s2` running out first is unreachable because
`s1 <= s2` lexicographically). -/
def cp2 : List Char → List Char → List Char
  | a :: as, b :: bs => if a = b then a :: cp2 as bs else []
  | _, _ => []

/-- Lexicographic strict order on character lists, the comparison Python
uses on the byte-string paths when `commonprefix` takes `min(m)` and
`max(m)`. -/
def ltChars : List Char → List Char → Bool
  | [], [] => false
  | [], _ :: _ => true
  | _ :: _, [] => false
  | a :: as, b :: bs =>
      if a < b then true else if b < a then false else ltChars as bs

/-- Embedding of `os.path.commonprefix` (Python standard library, called
at line 199 of the plugin): returns `""` on an empty list, otherwise the
character-wise common prefix of the lexicographic minimum and maximum of
the list, which equals the longest common leading string of all
elements.  Python's `min`/`max` keep the earliest element on ties. -/
def commonprefix (m : List String) : String :=
  match m.map String.toList with
  | [] => ""
  | s :: rest =>
      let s1 := rest.foldl (fun a b => if ltChars b a then b else a) s
      let s2 := rest.foldl (fun a b => if ltChars a b then b else a) s
      String.mk (cp2 s1 s2)

/-- Insertion step of the grouping loop of `import_stage`: the Python
dict `items_sorted` keeps keys in first-appearance order and appends each
item's path to its key's list. -/
def addItem (acc : List (String × List String)) (it : Item) :
    List (String × List String) :=
  if acc.any (fun g => g.1 = it.mb_albumid) then
    acc.map (fun g =>
      if g.1 = it.mb_albumid then (g.1, g.2 ++ [it.path]) else g)
  else
    acc ++ [(it.mb_albumid, [it.path])]

/-- Embedding of the first loop of `ImportHistPlugin.import_stage`: the
insertion-ordered dictionary from `mb_albumid` to the list of item
paths. -/
def items_sorted (items : List Item) : List (String × List String) :=
  items.foldl addItem []

/-- Embedding of the second loop of `import_stage`: the dictionary
`remote_path_ids` mapping each `mb_albumid` to the common prefix of its
paths.  Each entry is the `(mb_albumid, common_path)` argument pair of
one `insert_album` call, in iteration order. -/
def remote_path_ids (items : List Item) : List (String × String) :=
  (items_sorted items).map (fun g => (g.1, commonprefix g.2))

/-- Upserts performed by `import_stage` on a task with the given items:
one `(identifier, path)` pair per `insert_album` call, in order. -/
def import_stage_upserts (items : List Item) : List (String × String) :=
  remote_path_ids items

/-- Embedding of `ImportHistPlugin.import_stage` as a store
transformer: the third loop calls `insert_album(common_path, mbid)` for
every entry of `remote_path_ids`. -/
def import_stage (items : List Item) (st : Store) : Store :=
  (remote_path_ids items).foldl (fun s g => insert_album g.2 g.1 s) st

end ImportHist

/-- C2 counterexample: on the imported items
`{(id=X, path=/m/X/a.mp3), (id=X, path=/m/X/b.mp3), (id=Y, path=/m/Y/c.mp3)}`
the hook performs exactly two upserts, but they are `(X, "/m/X/")` and
`(Y, "/m/Y/c.mp3")` — `os.path.commonprefix` is character-wise and keeps
the trailing separator, and a single-element group yields the item's full
path — not `(X, "/m/X")` and `(Y, "/m/Y")` as the claim states. -/
theorem C2_counterexample :
    ImportHist.import_stage_upserts
        [⟨"X", "/m/X/a.mp3"⟩, ⟨"X", "/m/X/b.mp3"⟩, ⟨"Y", "/m/Y/c.mp3"⟩]
      = [("X", "/m/X/"), ("Y", "/m/Y/c.mp3")] ∧
    ImportHist.import_stage_upserts
        [⟨"X", "/m/X/a.mp3"⟩, ⟨"X", "/m/X/b.mp3"⟩, ⟨"Y", "/m/Y/c.mp3"⟩]
      ≠ [("X", "/m/X"), ("Y", "/m/Y")] := by
  constructor
  · rfl
  · decide

/-- C2 amended: on those items the hook groups by identifier and performs
exactly two upserts, `(X, "/m/X/")` and `(Y, "/m/Y/c.mp3")`: the recorded
path of a group is the character-wise common prefix of its paths
(`os.path.commonprefix`), which for a single-item group is the item's own
full path; applying the hook to the empty store yields exactly those two
records. -/
theorem C2_hook_grouping :
    ImportHist.import_stage_upserts
        [⟨"X", "/m/X/a.mp3"⟩, ⟨"X", "/m/X/b.mp3"⟩, ⟨"Y", "/m/Y/c.mp3"⟩]
      = [("X", "/m/X/"), ("Y", "/m/Y/c.mp3")] ∧
    ImportHist.import_stage
        [⟨"X", "/m/X/a.mp3"⟩, ⟨"X", "/m/X/b.mp3"⟩, ⟨"Y", "/m/Y/c.mp3"⟩] []
      = [("/m/X/", "X"), ("/m/Y/c.mp3", "Y")] := by
  constructor <;> rfl

namespace ImportHist

/-- Exception-aware embedding of `insert_album`: `fails path mbid = true`
means the underlying SQLite write raises on this call; the method itself
contains no exception handler, so a raise surfaces as `.error`. -/
def insert_albumE (fails : String → String → Bool)
    (origin_path mb_albumid : String) (st : Store) : Except Unit Store :=
  if fails origin_path mb_albumid then .error ()
  else .ok (insert_album origin_path mb_albumid st)

/-- Exception-aware embedding of `ImportHistPlugin.import_stage`: the
body is a plain `for` loop over `remote_path_ids` with no `try`/`except`,
so the first raising `insert_album` call aborts the hook and the
exception propagates to the caller (the host's import pipeline). -/
def import_stageE (fails : String → String → Bool)
    (items : List Item) (st : Store) : Except Unit Store :=
  (remote_path_ids items).foldlM (fun s g => insert_albumE fails g.2 g.1 s) st

theorem foldlM_insert_error (fails : String → String → Bool)
    (l : List (String × String)) (st : Store) :
    (l.foldlM (fun s g => insert_albumE fails g.2 g.1 s) st = .error ()) ↔
    ∃ g ∈ l, fails g.2 g.1 = true := by
  induction l generalizing st with
  | nil => simp [List.foldlM, pure, Except.pure]
  | cons g l ih =>
      by_cases h : fails g.2 g.1
      · simp only [List.foldlM, insert_albumE, h, ite_true, Bind.bind,
          Except.bind, List.mem_cons]
        constructor
        · intro _
          exact ⟨g, Or.inl rfl, h⟩
        · intro _
          trivial
      · simp only [List.foldlM, insert_albumE, h, Bool.false_eq_true,
          ite_false, Bind.bind, Except.bind, List.mem_cons]
        have ih' := ih (insert_album g.2 g.1 st)
        simp only [insert_albumE] at ih'
        rw [ih']
        constructor
        · rintro ⟨g', hg', hf⟩
          exact ⟨g', Or.inr hg', hf⟩
        · rintro ⟨g', hg' | hg', hf⟩
          · subst hg'
            simp [hf] at h
          · exact ⟨g', hg', hf⟩

end ImportHist

/-- C4 counterexample: when the single store write of an import task
raises, the hook returns the exception (`.error`) instead of logging and
swallowing it — `import_stage` has no `try`/`except`, so the failure
propagates to the host's import pipeline. -/
theorem C4_counterexample :
    ImportHist.import_stageE (fun _ _ => true) [⟨"X", "/m/X/a.mp3"⟩] []
      = .error () := by
  rfl

/-- C4 amended: the import hook performs no exception handling — a run of
`import_stage` raises (propagates an exception to the host's import
pipeline) exactly when one of the `insert_album` store writes it performs
raises, and otherwise completes all writes. -/
theorem C4_hook_propagates (fails : String → String → Bool)
    (items : List ImportHist.Item) (st : ImportHist.Store) :
    (ImportHist.import_stageE fails items st = .error ()) ↔
    ∃ g ∈ ImportHist.remote_path_ids items, fails g.2 g.1 = true := by
  exact ImportHist.foldlM_insert_error fails (ImportHist.remote_path_ids items) st

namespace ImportHist

/-- Outcome of one `suggest_removal` invocation: the store afterwards,
whether the `input_yn` prompt was shown, and the path passed to `rmtree`
when a deletion happened. -/
structure RemovalOutcome where
  store : Store
  promptShown : Bool
  deletedPath : Option String
deriving DecidableEq, Repr

/-- Embedding of `ImportHistPlugin.suggest_removal`.  Environment
parameters stand for the external world: `isdir p` is
`os.path.isdir(p)`, `answer` is the operator's `input_yn` reply, and
`rmtreeFails p = true` means `shutil.rmtree(p)` raises.  The Python guard
`if history_path and os.path.isdir(history_path)` treats both `None` and
the empty string as falsy.  There is no `try`/`except`: a raising
`rmtree` aborts the handler (`.error`), skipping the final
`remove_album`. -/
def suggest_removal (isdir : String → Bool) (answer : Bool)
    (rmtreeFails : String → Bool) (item_mbid : String) (st : Store) :
    Except Unit RemovalOutcome :=
  match was_album_recorded item_mbid st with
  | some history_path =>
      if history_path ≠ "" && isdir history_path then
        if answer then
          if rmtreeFails history_path then .error ()
          else .ok ⟨remove_album item_mbid st, true, some history_path⟩
        else .ok ⟨remove_album item_mbid st, true, none⟩
      else .ok ⟨remove_album item_mbid st, false, none⟩
  | none => .ok ⟨remove_album item_mbid st, false, none⟩

end ImportHist

/-- C5 counterexample: with a recorded directory path, a "yes" answer and
a raising `rmtree`, `suggest_removal` neither logs-and-continues nor
evicts — the exception propagates (`.error`) and the record for the
identifier is still present, because the `rmtree` call at line 217 has no
exception handler and the `remove_album` at line 219 is never reached. -/
theorem C5_counterexample :
    ImportHist.suggest_removal (fun _ => true) true (fun _ => true) "k"
        [("/d", "k")] = .error () ∧
    ImportHist.was_album_recorded "k" [("/d", "k")] = some "/d" := by
  constructor <;> rfl

/-- C5 amended: when the operator answers yes and `rmtree` raises, the
exception propagates out of `suggest_removal` to the host's removal
pipeline and the record is NOT evicted; in every non-raising run
(answer no, successful deletion, path not a directory, or no record) the
handler returns normally and the record for the identifier is evicted
from the store regardless of the operator's choice. -/
theorem C5_removal_failure (isdir : String → Bool) (answer : Bool)
    (rmtreeFails : String → Bool) (k hp : String) (st : ImportHist.Store) :
    (ImportHist.was_album_recorded k st = some hp →
      (hp ≠ "" && isdir hp) = true → answer = true → rmtreeFails hp = true →
      ImportHist.suggest_removal isdir answer rmtreeFails k st = .error ()) ∧
    (∀ out, ImportHist.suggest_removal isdir answer rmtreeFails k st = .ok out →
      out.store = ImportHist.remove_album k st) := by
  constructor
  · intro hrec hdir hans hfail
    unfold ImportHist.suggest_removal
    rw [hrec]
    dsimp only
    rw [if_pos hdir, if_pos hans, if_pos hfail]
  · intro out hout
    unfold ImportHist.suggest_removal at hout
    cases hrec : ImportHist.was_album_recorded k st with
    | none =>
        rw [hrec] at hout
        cases hout
        rfl
    | some hp =>
        rw [hrec] at hout
        dsimp only at hout
        by_cases hdir : (hp ≠ "" && isdir hp) = true
        · rw [if_pos hdir] at hout
          by_cases hans : answer = true
          · rw [if_pos hans] at hout
            by_cases hfail : rmtreeFails hp = true
            · rw [if_pos hfail] at hout
              cases hout
            · rw [if_neg hfail] at hout
              cases hout
              rfl
          · rw [if_neg hans] at hout
            cases hout
            rfl
        · rw [if_neg hdir] at hout
          cases hout
          rfl

/-- Witness for C5 at concrete inputs: a failing deletion propagates, and
a "no" answer still evicts. -/
theorem C5_removal_failure_witness :
    (ImportHist.suggest_removal (fun _ => true) true (fun _ => true) "k"
        [("/d", "k")] = .error ()) ∧
    (ImportHist.RemovalOutcome.store ⟨[], true, none⟩
      = ImportHist.remove_album "k" [("/d", "k")]) := by
  constructor
  · exact (C5_removal_failure (fun _ => true) true (fun _ => true) "k" "/d"
      [("/d", "k")]).1 rfl (by decide) rfl rfl
  · exact (C5_removal_failure (fun _ => true) false (fun _ => true) "k" "/d"
      [("/d", "k")]).2 ⟨[], true, none⟩ rfl

namespace ImportHist

theorem lookup_remove_other (k k' : String) (h : k' ≠ k) (st : Store) :
    was_album_recorded k' (remove_album k st) = was_album_recorded k' st := by
  unfold was_album_recorded remove_album
  rw [List.filter_filter]
  congr 1
  apply List.filter_congr
  intro a _
  by_cases ha : a.2 = k'
  · subst ha
    simp [h]
  · simp [ha]

end ImportHist

/-- C7: for an identifier `k` whose recorded path is not currently a
directory, `suggest_removal` shows no prompt, deletes nothing from the
filesystem, and evicts the record (the already-gone outcome): the result
store is exactly `remove_album k st`, under which `k` is absent and every
other identifier's lookup is unchanged. -/
theorem C7_already_gone_eviction (isdir : String → Bool) (answer : Bool)
    (rmtreeFails : String → Bool) (k hp : String) (st : ImportHist.Store)
    (hrec : ImportHist.was_album_recorded k st = some hp)
    (hdir : isdir hp = false) :
    ImportHist.suggest_removal isdir answer rmtreeFails k st
      = .ok ⟨ImportHist.remove_album k st, false, none⟩ ∧
    ImportHist.was_album_recorded k (ImportHist.remove_album k st) = none ∧
    ∀ k', k' ≠ k →
      ImportHist.was_album_recorded k' (ImportHist.remove_album k st)
        = ImportHist.was_album_recorded k' st := by
  refine ⟨?_, ?_, ?_⟩
  · unfold ImportHist.suggest_removal
    rw [hrec]
    dsimp only
    rw [if_neg]
    simp [hdir]
  · exact (C3_lookup_remove_consistency k st).1
  · intro k' hk'
    exact ImportHist.lookup_remove_other k k' hk' st

/-- Witness for C7 at a concrete two-record store whose recorded path for
`k` is no longer a directory. -/
theorem C7_already_gone_eviction_witness :
    ImportHist.was_album_recorded "k" [("/gone", "k"), ("/q", "j")] = some "/gone" ∧
    (fun _ : String => false) "/gone" = false ∧
    ImportHist.suggest_removal (fun _ => false) true (fun _ => false) "k"
        [("/gone", "k"), ("/q", "j")]
      = .ok ⟨[("/q", "j")], false, none⟩ ∧
    ImportHist.was_album_recorded "j" [("/q", "j")]
      = ImportHist.was_album_recorded "j" [("/gone", "k"), ("/q", "j")] := by
  have h := C7_already_gone_eviction (fun _ => false) true (fun _ => false)
    "k" "/gone" [("/gone", "k"), ("/q", "j")] rfl rfl
  exact ⟨rfl, rfl, h.1, h.2.2 "j" (by decide)⟩

namespace ImportHist

/-- Outcome of `cmd_add`: either an explicit `return code` together with
the store afterwards, or the IndexError raised by evaluating `args[1]`
when only one argument is given (caught by `arguments_handler`, which
prints the command help instead); the store is untouched in the
exception case. -/
inductive AddOutcome
  | ret (code : Nat) (st : Store)
  | indexError (st : Store)
deriving DecidableEq, Repr

/-- Embedding of `ImportHistPlugin.cmd_add`.  `isDir p` models
`pathlib.Path(p).is_dir()`, `resolve p` models
`str(pathlib.Path(p).resolve())`, and `libMatches a` models the number of
albums returned by `lib.albums("mb_albumid:" + a)`.  The branch order
follows the source: empty-args check, `args[1]` access, directory check,
truthiness check of the album query result, the `len > 1` check, then
the insert. -/
def cmd_add (isDir : String → Bool) (resolve : String → String)
    (libMatches : String → Nat) (args : List String) (st : Store) : AddOutcome :=
  match args with
  | [] => .ret 3 st
  | [_] => .indexError st
  | album_arg :: path_arg :: _ =>
      if !isDir path_arg then .ret 1 st
      else if libMatches album_arg ≠ 0 then .ret 1 st
      else if libMatches album_arg > 1 then .ret 70 st
      else .ret 0 (insert_album (resolve path_arg) album_arg st)

/-- Outcome of `cmd_delete`: an explicit `return code` with the store,
or the fall-through return of `remove_album` (whose value is the empty
`fetchall()` list) with the store after deletion. -/
inductive DelOutcome
  | ret (code : Nat) (st : Store)
  | removed (st : Store)
deriving DecidableEq, Repr

/-- Embedding of `ImportHistPlugin.cmd_delete`: empty-args check, then
the truthiness check of the album query result, the `len > 1` check, and
finally `remove_album(args[0])`. -/
def cmd_delete (libMatches : String → Nat) (args : List String) (st : Store) :
    DelOutcome :=
  match args with
  | [] => .ret 3 st
  | a :: _ =>
      if libMatches a ≠ 0 then .ret 1 st
      else if libMatches a > 1 then .ret 70 st
      else .removed (remove_album a st)

/-- Boolean test that a `cmd_add` run ended in `return 70`. -/
def AddOutcome.isRet70 : AddOutcome → Bool
  | .ret 70 _ => true
  | _ => false

/-- Boolean test that a `cmd_delete` run ended in `return 70`. -/
def DelOutcome.isRet70 : DelOutcome → Bool
  | .ret 70 _ => true
  | _ => false

end ImportHist

/-- C10: the internal-consistency branch `return 70` is unreachable in
both `cmd_add` and `cmd_delete`, for every library state, argument list
and store: any non-zero number of matching albums already returns 1 at
the truthiness check `if existing_albums:` before the
`len(existing_albums) > 1` test is evaluated. -/
theorem C10_return70_unreachable (isDir : String → Bool)
    (resolve : String → String) (libMatches : String → Nat)
    (args : List String) (st : ImportHist.Store) :
    (ImportHist.cmd_add isDir resolve libMatches args st).isRet70 = false ∧
    (ImportHist.cmd_delete libMatches args st).isRet70 = false := by
  constructor
  · match args with
    | [] => rfl
    | [_] => rfl
    | a :: p :: rest =>
        unfold ImportHist.cmd_add
        by_cases hd : isDir p
        · by_cases hm : libMatches a = 0
          · simp [hd, hm, ImportHist.AddOutcome.isRet70]
          · simp [hd, hm, ImportHist.AddOutcome.isRet70]
        · simp [hd, ImportHist.AddOutcome.isRet70]
  · match args with
    | [] => rfl
    | a :: rest =>
        unfold ImportHist.cmd_delete
        by_cases hm : libMatches a = 0
        · simp [hm, ImportHist.DelOutcome.isRet70]
        · simp [hm, ImportHist.DelOutcome.isRet70]

/-- C9 counterexample: with a path that is a directory and an identifier
matching two library albums, `cmd_add` returns 1 (the truthiness branch
`if existing_albums:`) — not 70 as the claim states for more than one
match; and with exactly one argument it raises IndexError at `args[1]`
instead of returning 3 for missing arguments. -/
theorem C9_counterexample :
    ImportHist.cmd_add (fun _ => true) id (fun _ => 2) ["k", "/d"] []
      = .ret 1 [] ∧
    ImportHist.cmd_add (fun _ => true) id (fun _ => 0) ["k"] []
      = .indexError [] := by
  constructor <;> rfl

/-- C9 amended: `cmd_add` returns 3 only on an empty argument list; with
exactly one argument it raises IndexError (which `arguments_handler`
catches, printing help); returns 1 when the path is not a directory;
returns 1 whenever the identifier has at least one library match — also
when it has more than one, so the 70 branch never fires; and returns 0
after upserting the resolved path when the path is a directory and there
are zero matches.  The store is unchanged in every case other than the
successful upsert. -/
theorem C9_add_exit_codes (isDir : String → Bool) (resolve : String → String)
    (libMatches : String → Nat) (st : ImportHist.Store) :
    (ImportHist.cmd_add isDir resolve libMatches [] st = .ret 3 st) ∧
    (∀ a, ImportHist.cmd_add isDir resolve libMatches [a] st
      = .indexError st) ∧
    (∀ a p rest, isDir p = false →
      ImportHist.cmd_add isDir resolve libMatches (a :: p :: rest) st
        = .ret 1 st) ∧
    (∀ a p rest, isDir p = true → libMatches a ≠ 0 →
      ImportHist.cmd_add isDir resolve libMatches (a :: p :: rest) st
        = .ret 1 st) ∧
    (∀ a p rest, isDir p = true → libMatches a = 0 →
      ImportHist.cmd_add isDir resolve libMatches (a :: p :: rest) st
        = .ret 0 (ImportHist.insert_album (resolve p) a st)) := by
  refine ⟨rfl, fun a => rfl, ?_, ?_, ?_⟩
  · intro a p rest hd
    unfold ImportHist.cmd_add
    simp [hd]
  · intro a p rest hd hm
    unfold ImportHist.cmd_add
    simp [hd, hm]
  · intro a p rest hd hm
    unfold ImportHist.cmd_add
    simp [hd, hm]

/-- Witness for C9 amended at concrete inputs: a missing-path invocation
raises IndexError, a non-directory path returns 1, a matched identifier
returns 1, and a valid invocation returns 0 after writing the record. -/
theorem C9_add_exit_codes_witness :
    (ImportHist.cmd_add (fun _ => true) id (fun _ => 0) ["k"] []
      = .indexError []) ∧
    (ImportHist.cmd_add (fun _ => false) id (fun _ => 0) ["k", "/d"] []
      = .ret 1 []) ∧
    (ImportHist.cmd_add (fun _ => true) id (fun _ => 2) ["k", "/d"] []
      = .ret 1 []) ∧
    (ImportHist.cmd_add (fun _ => true) id (fun _ => 0) ["k", "/d"] []
      = .ret 0 [("/d", "k")]) := by
  refine ⟨(C9_add_exit_codes (fun _ => true) id (fun _ => 0) []).2.1 "k",
    (C9_add_exit_codes (fun _ => false) id (fun _ => 0) []).2.2.1 "k" "/d" [] rfl,
    (C9_add_exit_codes (fun _ => true) id (fun _ => 2) []).2.2.2.1 "k" "/d" [] rfl (by decide),
    (C9_add_exit_codes (fun _ => true) id (fun _ => 0) []).2.2.2.2 "k" "/d" [] rfl rfl⟩

namespace ImportHist

theorem foldl_pick_mem (pick : List Char → List Char → List Char)
    (hp : ∀ a b, pick a b = a ∨ pick a b = b) :
    ∀ (rest : List (List Char)) (s : List Char), rest.foldl pick s ∈ s :: rest := by
  intro rest
  induction rest with
  | nil => intro s; simp
  | cons r rs ih =>
      intro s
      simp only [List.foldl_cons]
      have hm := ih (pick s r)
      simp only [List.mem_cons] at hm ⊢
      rcases hm with hm | hm
      · rcases hp s r with h | h
        · exact Or.inl (hm.trans h)
        · exact Or.inr (Or.inl (hm.trans h))
      · exact Or.inr (Or.inr hm)

theorem commonprefix_head (c : Char) (paths : List String)
    (hne : paths ≠ [])
    (hhead : ∀ p ∈ paths, ∃ t, p.toList = c :: t) :
    commonprefix paths ≠ "" := by
  match paths, hne with
  | p :: ps, _ =>
      unfold commonprefix
      simp only [List.map_cons]
      show String.mk
          (cp2 (List.foldl (fun a b => if ltChars b a then b else a)
                  p.toList (List.map String.toList ps))
               (List.foldl (fun a b => if ltChars a b then b else a)
                  p.toList (List.map String.toList ps))) ≠ ""
      have hpick1 : ∀ a b : List Char,
          (if ltChars b a then b else a) = a ∨ (if ltChars b a then b else a) = b := by
        intro a b
        by_cases h : ltChars b a <;> simp [h]
      have hpick2 : ∀ a b : List Char,
          (if ltChars a b then b else a) = a ∨ (if ltChars a b then b else a) = b := by
        intro a b
        by_cases h : ltChars a b <;> simp [h]
      have hm1 := foldl_pick_mem (fun a b => if ltChars b a then b else a) hpick1
        (List.map String.toList ps) p.toList
      have hm2 := foldl_pick_mem (fun a b => if ltChars a b then b else a) hpick2
        (List.map String.toList ps) p.toList
      have hall : ∀ l ∈ p.toList :: List.map String.toList ps, ∃ t, l = c :: t := by
        intro l hl
        rcases List.mem_cons.mp hl with rfl | hl
        · exact hhead p (by simp)
        · rcases List.mem_map.mp hl with ⟨q, hq, rfl⟩
          exact hhead q (by simp [hq])
      rcases hall _ hm1 with ⟨t1, ht1⟩
      rcases hall _ hm2 with ⟨t2, ht2⟩
      rw [ht1, ht2]
      intro hcon
      rw [show ("" : String) = String.mk [] from rfl] at hcon
      have h2 : cp2 (c :: t1) (c :: t2) = [] := by
        injection hcon
      simp [cp2] at h2

theorem addItem_inv (P : String → Prop) (acc : List (String × List String))
    (it : Item)
    (hacc : ∀ g ∈ acc, g.2 ≠ [] ∧ ∀ p ∈ g.2, P p) (hit : P it.path) :
    ∀ g ∈ addItem acc it, g.2 ≠ [] ∧ ∀ p ∈ g.2, P p := by
  intro g hg
  unfold addItem at hg
  by_cases h : acc.any (fun g => g.1 = it.mb_albumid)
  · rw [if_pos h] at hg
    rcases List.mem_map.mp hg with ⟨g0, hg0, rfl⟩
    by_cases he : g0.1 = it.mb_albumid
    · rw [if_pos he]
      refine ⟨by simp, ?_⟩
      intro p hp
      simp only [List.mem_append, List.mem_singleton] at hp
      rcases hp with hp | rfl
      · exact (hacc g0 hg0).2 p hp
      · exact hit
    · rw [if_neg he]
      exact hacc g0 hg0
  · rw [if_neg h] at hg
    simp only [List.mem_append, List.mem_singleton] at hg
    rcases hg with hg | rfl
    · exact hacc g hg
    · exact ⟨by simp, by simpa using hit⟩

theorem items_sorted_inv (P : String → Prop) :
    ∀ (items : List Item) (acc : List (String × List String)),
      (∀ g ∈ acc, g.2 ≠ [] ∧ ∀ p ∈ g.2, P p) →
      (∀ it ∈ items, P it.path) →
      ∀ g ∈ items.foldl addItem acc, g.2 ≠ [] ∧ ∀ p ∈ g.2, P p := by
  intro items
  induction items with
  | nil => intro acc hacc _; simpa using hacc
  | cons it its ih =>
      intro acc hacc hits
      simp only [List.foldl_cons]
      apply ih
      · exact addItem_inv P acc it hacc (hits it (by simp))
      · intro x hx
        exact hits x (by simp [hx])

theorem foldl_insert_nonempty (l : List (String × String)) :
    ∀ (st : Store), (∀ g ∈ l, g.2 ≠ "") → (∀ r ∈ st, r.1 ≠ "") →
      ∀ r ∈ l.foldl (fun s g => insert_album g.2 g.1 s) st, r.1 ≠ "" := by
  induction l with
  | nil => intro st _ hst; simpa using hst
  | cons g l ih =>
      intro st hl hst
      simp only [List.foldl_cons]
      apply ih
      · intro x hx
        exact hl x (by simp [hx])
      · intro r hr
        unfold insert_album at hr
        simp only [List.mem_append, List.mem_singleton] at hr
        rcases hr with hr | rfl
        · exact hst r (List.mem_of_mem_filter hr)
        · exact hl g (by simp)

end ImportHist

/-- C6 counterexample: on a task whose two items share identifier `X` but
have paths `"a"` and `"b"` with no common first character,
`os.path.commonprefix` returns the empty string and the hook upserts
`(X, "")`, leaving a record whose `origin_path` is empty — the invariant
does not hold for every possible set of imported item paths. -/
theorem C6_counterexample :
    ImportHist.import_stage_upserts [⟨"X", "a"⟩, ⟨"X", "b"⟩] = [("X", "")] ∧
    ImportHist.import_stage [⟨"X", "a"⟩, ⟨"X", "b"⟩] [] = [("", "X")] := by
  constructor <;> rfl

/-- C6 amended: neither `insert_album` nor the hook enforces a non-empty
`origin_path` in general, but when every imported item path is absolute
(begins with `'/'`, as the host's item paths do), every upsert performed
by `import_stage` carries a non-empty path, and starting from a store
whose records all have non-empty paths the store reached after the hook
still has no empty `origin_path`. -/
theorem C6_nonempty_paths (items : List ImportHist.Item)
    (st : ImportHist.Store)
    (habs : ∀ it ∈ items, ∃ t, it.path.toList = '/' :: t)
    (hst : ∀ r ∈ st, r.1 ≠ "") :
    (∀ g ∈ ImportHist.import_stage_upserts items, g.2 ≠ "") ∧
    (∀ r ∈ ImportHist.import_stage items st, r.1 ≠ "") := by
  have hups : ∀ g ∈ ImportHist.import_stage_upserts items, g.2 ≠ "" := by
    intro g hg
    unfold ImportHist.import_stage_upserts ImportHist.remote_path_ids at hg
    rcases List.mem_map.mp hg with ⟨g0, hg0, rfl⟩
    have hinv := ImportHist.items_sorted_inv (fun p => ∃ t, p.toList = '/' :: t)
      items [] (by simp) habs g0 hg0
    exact ImportHist.commonprefix_head '/' g0.2 hinv.1 hinv.2
  refine ⟨hups, ?_⟩
  intro r hr
  unfold ImportHist.import_stage at hr
  exact ImportHist.foldl_insert_nonempty (ImportHist.remote_path_ids items)
    st hups hst r hr

/-- Witness for C6 amended on a concrete absolute-path import task. -/
theorem C6_nonempty_paths_witness :
    (∀ g ∈ ImportHist.import_stage_upserts
        [⟨"X", "/m/X/a.mp3"⟩, ⟨"X", "/m/X/b.mp3"⟩], g.2 ≠ "") ∧
    (∀ r ∈ ImportHist.import_stage
        [⟨"X", "/m/X/a.mp3"⟩, ⟨"X", "/m/X/b.mp3"⟩] [("/q", "j")], r.1 ≠ "") := by
  apply C6_nonempty_paths
  · intro it hit
    simp only [List.mem_cons, List.not_mem_nil, or_false] at hit
    rcases hit with rfl | rfl
    · exact ⟨"m/X/a.mp3".toList, rfl⟩
    · exact ⟨"m/X/b.mp3".toList, rfl⟩
  · intro r hr
    simp only [List.mem_cons, List.not_mem_nil, or_false] at hr
    subst hr
    decide

namespace ImportHist

/-- Modelled from the spec: classification of the recorded path on disk
(spec 4.3 step 2) — directory, regular file, or already gone.  The
Removal Advisor revision carrying the Suppression Set and the
multiple-choice file branch is described in spec 4.3 but is not among
the source files under src/. -/
inductive PathKind
  | dir
  | file
  | gone
deriving DecidableEq, Repr

/-- Modelled from the spec: the secondary yes/no/file-only confirmation
of the recursive-deletion option in the file branch (spec 4.3 step 4). -/
inductive SecondaryChoice
  | yes
  | no
  | fileOnly
deriving DecidableEq, Repr

/-- Modelled from the spec: the four outcomes of the file-branch
multiple-choice prompt (spec 4.3 step 4), including the "stop
suggesting" choice that populates the Suppression Set. -/
inductive FileChoice
  | deleteFile
  | deleteParentRec (confirm : SecondaryChoice)
  | nothing
  | stopSuggesting
deriving DecidableEq, Repr

/-- Modelled from the spec: the terminal states of one Removal Advisor
invocation (spec 4.3, states are terminal after one pass). -/
inductive AdvisorState
  | skip
  | alreadyGone
  | deletedDir
  | kept
  | deletedFile
  | deletedDirRec
  | aborted
  | suppressed
deriving DecidableEq, Repr

/-- Outcome of one spec-modelled Removal Advisor invocation: terminal
state, whether any prompt was shown, the store afterwards, and the
Suppression Set afterwards. -/
structure AdvisorResult where
  state : AdvisorState
  promptShown : Bool
  store : Store
  supp : List String
deriving DecidableEq, Repr

/-- Modelled from the spec: one invocation of the Removal Advisor state
machine of spec 4.3 over the Import Record Store, a path classifier, the
operator's answers, and the process-lifetime Suppression Set.  Entry
guard (step 1), classification (step 2), directory branch (step 3), file
branch (step 4); the record is evicted in every terminal state except
`aborted` and `skip` (step 5), and only `stopSuggesting` adds to the
Suppression Set. -/
def advisor (classify : String → PathKind) (dirAnswer : Bool)
    (fileChoice : FileChoice) (k : String) (st : Store)
    (supp : List String) : AdvisorResult :=
  match was_album_recorded k st with
  | none => ⟨.skip, false, st, supp⟩
  | some p =>
      if supp.contains k then ⟨.skip, false, st, supp⟩
      else
        match classify p with
        | .gone => ⟨.alreadyGone, false, remove_album k st, supp⟩
        | .dir =>
            if dirAnswer then ⟨.deletedDir, true, remove_album k st, supp⟩
            else ⟨.kept, true, remove_album k st, supp⟩
        | .file =>
            match fileChoice with
            | .deleteFile => ⟨.deletedFile, true, remove_album k st, supp⟩
            | .deleteParentRec .yes =>
                ⟨.deletedDirRec, true, remove_album k st, supp⟩
            | .deleteParentRec .no => ⟨.aborted, true, st, supp⟩
            | .deleteParentRec .fileOnly =>
                ⟨.deletedFile, true, remove_album k st, supp⟩
            | .nothing => ⟨.kept, true, remove_album k st, supp⟩
            | .stopSuggesting =>
                ⟨.suppressed, true, remove_album k st, supp ++ [k]⟩

/-- Removal event of a run: the environment and operator answers of one
`item_removed` invocation for the given identifier. -/
structure RemovalEvent where
  classify : String → PathKind
  dirAnswer : Bool
  fileChoice : FileChoice
  mbid : String

/-- Sequence of Removal Advisor invocations within one process run,
threading the store and the Suppression Set. -/
def advisorRun (events : List RemovalEvent) (st : Store)
    (supp : List String) : Store × List String :=
  events.foldl
    (fun acc e =>
      let r := advisor e.classify e.dirAnswer e.fileChoice e.mbid acc.1 acc.2
      (r.store, r.supp))
    (st, supp)

theorem advisor_supp_mono (classify : String → PathKind) (dirAnswer : Bool)
    (fileChoice : FileChoice) (k x : String) (st : Store)
    (supp : List String) (hx : x ∈ supp) :
    x ∈ (advisor classify dirAnswer fileChoice k st supp).supp := by
  unfold advisor
  cases was_album_recorded k st with
  | none => exact hx
  | some p =>
      dsimp only
      by_cases hs : supp.contains k
      · rw [if_pos hs]
        exact hx
      · rw [if_neg hs]
        cases classify p with
        | gone => exact hx
        | dir => by_cases hd : dirAnswer <;> simp [hd, hx]
        | file =>
            cases fileChoice with
            | deleteFile => exact hx
            | deleteParentRec c => cases c <;> exact hx
            | nothing => exact hx
            | stopSuggesting => simp [hx]

theorem advisorRun_supp_mono (events : List RemovalEvent) :
    ∀ (st : Store) (supp : List String) (x : String), x ∈ supp →
      x ∈ (advisorRun events st supp).2 := by
  induction events with
  | nil => intro st supp x hx; exact hx
  | cons e es ih =>
      intro st supp x hx
      unfold advisorRun
      simp only [List.foldl_cons]
      apply ih
      exact advisor_supp_mono e.classify e.dirAnswer e.fileChoice e.mbid x st supp hx

theorem advisor_suppressed_skip (classify : String → PathKind)
    (dirAnswer : Bool) (fileChoice : FileChoice) (k : String) (st : Store)
    (supp : List String) (hk : supp.contains k = true) :
    advisor classify dirAnswer fileChoice k st supp
      = ⟨.skip, false, st, supp⟩ := by
  unfold advisor
  cases was_album_recorded k st with
  | none => rfl
  | some p =>
      dsimp only
      rw [if_pos hk]

end ImportHist

/-- C8: after the operator selects "stop suggesting" for identifier `k`
(file branch of the spec-modelled Removal Advisor), the invocation ends
in state `suppressed` with `k` added to the Suppression Set, and every
later removal event for `k` in the same process run — after any sequence
of further advisor invocations — ends in state `skip` with no prompt
shown and the store and Suppression Set unchanged. -/
theorem C8_suppression (classify : String → ImportHist.PathKind)
    (dirAnswer : Bool) (k p : String) (st : ImportHist.Store)
    (supp : List String)
    (hrec : ImportHist.was_album_recorded k st = some p)
    (hsupp : supp.contains k = false)
    (hfile : classify p = ImportHist.PathKind.file) :
    (ImportHist.advisor classify dirAnswer
        ImportHist.FileChoice.stopSuggesting k st supp).state
      = ImportHist.AdvisorState.suppressed ∧
    k ∈ (ImportHist.advisor classify dirAnswer
        ImportHist.FileChoice.stopSuggesting k st supp).supp ∧
    ∀ (events : List ImportHist.RemovalEvent)
      (c2 : String → ImportHist.PathKind) (d2 : Bool)
      (f2 : ImportHist.FileChoice),
      ImportHist.advisor c2 d2 f2 k
          (ImportHist.advisorRun events
            (ImportHist.advisor classify dirAnswer
              ImportHist.FileChoice.stopSuggesting k st supp).store
            (ImportHist.advisor classify dirAnswer
              ImportHist.FileChoice.stopSuggesting k st supp).supp).1
          (ImportHist.advisorRun events
            (ImportHist.advisor classify dirAnswer
              ImportHist.FileChoice.stopSuggesting k st supp).store
            (ImportHist.advisor classify dirAnswer
              ImportHist.FileChoice.stopSuggesting k st supp).supp).2
        = ⟨ImportHist.AdvisorState.skip, false,
            (ImportHist.advisorRun events
              (ImportHist.advisor classify dirAnswer
                ImportHist.FileChoice.stopSuggesting k st supp).store
              (ImportHist.advisor classify dirAnswer
                ImportHist.FileChoice.stopSuggesting k st supp).supp).1,
            (ImportHist.advisorRun events
              (ImportHist.advisor classify dirAnswer
                ImportHist.FileChoice.stopSuggesting k st supp).store
              (ImportHist.advisor classify dirAnswer
                ImportHist.FileChoice.stopSuggesting k st supp).supp).2⟩ := by
  have hadv : ImportHist.advisor classify dirAnswer
      ImportHist.FileChoice.stopSuggesting k st supp
    = ⟨ImportHist.AdvisorState.suppressed, true,
        ImportHist.remove_album k st, supp ++ [k]⟩ := by
    unfold ImportHist.advisor
    rw [hrec]
    dsimp only
    rw [if_neg (by rw [hsupp]; simp)]
    rw [hfile]
  refine ⟨by rw [hadv], by rw [hadv]; simp, ?_⟩
  intro events c2 d2 f2
  have hmem : k ∈ (ImportHist.advisorRun events
      (ImportHist.advisor classify dirAnswer
        ImportHist.FileChoice.stopSuggesting k st supp).store
      (ImportHist.advisor classify dirAnswer
        ImportHist.FileChoice.stopSuggesting k st supp).supp).2 := by
    apply ImportHist.advisorRun_supp_mono
    rw [hadv]
    simp
  apply ImportHist.advisor_suppressed_skip
  simpa using hmem

/-- Witness for C8: a concrete run where the operator stops suggestions
for `"k"` on a store recording a file path, followed by a later removal
event for `"k"` that is skipped without a prompt. -/
theorem C8_suppression_witness :
    (ImportHist.advisor (fun _ => ImportHist.PathKind.file) true
        ImportHist.FileChoice.stopSuggesting "k" [("/f", "k")] []).state
      = ImportHist.AdvisorState.suppressed ∧
    "k" ∈ (ImportHist.advisor (fun _ => ImportHist.PathKind.file) true
        ImportHist.FileChoice.stopSuggesting "k" [("/f", "k")] []).supp ∧
    ImportHist.advisor (fun _ => ImportHist.PathKind.dir) true
        ImportHist.FileChoice.deleteFile "k" [] ["k"]
      = ⟨ImportHist.AdvisorState.skip, false, [], ["k"]⟩ := by
  have h := C8_suppression (fun _ => ImportHist.PathKind.file) true "k" "/f"
    [("/f", "k")] [] rfl rfl rfl
  exact ⟨h.1, h.2.1, h.2.2 [] (fun _ => ImportHist.PathKind.dir) true
    ImportHist.FileChoice.deleteFile⟩
